import Mathlib

/-!
Verification development for the Telamon autotuning compiler.

Each section embeds a fragment of the Rust source shallowly: pure Rust
functions become Lean functions over `Nat`/`Int`/`ℚ`, fallible code returns
`Option`/`Except`, and `f64` values that only undergo exact arithmetic
(thresholds, averages of dyadic values) are modelled by `ℚ`.

Code generated at build time by the constraint DSL (the `choices` module of
`src/search_space`, the performance model internals and the `ir` leaf types)
is not part of the sources; where a claim depends on it, the missing part is
modelled from the specification and marked `Modelled from the spec:`.
-/

namespace Telamon

/- ================================================================== -/
/- §A. IR operators and rounding modes — `src/src/ir/operator.rs`      -/
/- ================================================================== -/

/-- Modelled from the spec: the `ir::Type` enum is not part of the sources
(only `src/src/ir/operator.rs` is). From the spec §4.1 ("typed
integer/float/bitfield" operands, pointer types lowered from the device) and
the uses `Type::I(32)`, `Type::I(64)`, `Type::PtrTo(_)` in `operator.rs`:
integers `I(bits)`, floats `F(bits)` and pointers `PtrTo(mem)`. -/
inductive IrType where
  | I (bits : Nat)
  | F (bits : Nat)
  | PtrTo (mem : Nat)
deriving DecidableEq, Repr

/-- Modelled from the spec: `Type::is_float` holds exactly on the
floating-point variant `F(_)`. -/
def IrType.is_float : IrType → Bool
  | .F _ => true
  | _ => false

/-- The rounding mode of an arithmetic operation (`operator.rs` lines 12-23). -/
inductive Rounding where
  | Exact
  | Nearest
  | Zero
  | Positive
  | Negative
deriving DecidableEq, Repr

/-- The error returned by the type checks (`ir::TypeError::InvalidRounding`). -/
inductive TypeError where
  | InvalidRounding (rounding : Rounding) (t : IrType)
deriving DecidableEq, Repr

/-- `Rounding::check` (`operator.rs` lines 40-46): the rounding policy applies
to a type when `t.is_float() ^ (self == Rounding::Exact)`. -/
def Rounding.check (r : Rounding) (t : IrType) : Except TypeError Unit :=
  if Bool.xor t.is_float (r == Rounding.Exact) then
    Except.ok ()
  else
    Except.error (TypeError.InvalidRounding r t)

/-- Binary arithmetic operators (`operator.rs` lines 52-71). -/
inductive BinOp where
  | Add
  | Sub
  | Div
  | And
  | Or
  | Lt
  | Leq
  | Equals
  | Max
deriving DecidableEq, Repr

/-- `BinOp::requires_rounding` (`operator.rs` lines 104-109). -/
def BinOp.requires_rounding : BinOp → Bool
  | .Lt | .Leq | .Equals | .Max => false
  | _ => true

/-- The operators of `operator.rs` lines 146-166, with each operand abstracted
by its type (`Operand::t()` is the only operand attribute the rounding logic
reads). Access patterns and lowering maps are not represented: they do not
take part in the rounding checks. -/
inductive Operator where
  | binOp (op : BinOp) (lhs rhs : IrType) (rounding : Rounding)
  | unaryOp (operand : IrType)
  | mul (lhs rhs : IrType) (rounding : Rounding) (res : IrType)
  | mad (mulLhs mulRhs addRhs : IrType) (rounding : Rounding)
  | ld (t : IrType) (addr : IrType)
  | st (addr : IrType) (val : IrType) (sideEffects : Bool)
  | tmpLd (t : IrType) (mem : Nat)
  | tmpSt (val : IrType) (mem : Nat)
deriving DecidableEq, Repr

/-- The rounding-mode portion of `Operator::check` (`operator.rs` lines
189-230): the checks on the `Rounding` carried by the operator, arm by arm.
The remaining checks of `Operator::check` (device types, operand type
equality, dim mappings, access patterns) never produce an `InvalidRounding`
error and are independent of the rounding mode. -/
def Operator.check_rounding : Operator → Except TypeError Unit
  | .binOp op lhs _ rounding =>
      if op.requires_rounding then
        rounding.check lhs
      else if rounding != Rounding.Exact then
        Except.error (TypeError.InvalidRounding rounding lhs)
      else
        Except.ok ()
  | .mul lhs _ rounding _ => rounding.check lhs
  | .mad mulLhs _ _ rounding => rounding.check mulLhs
  | .unaryOp _ | .ld .. | .st .. | .tmpLd .. | .tmpSt .. => Except.ok ()

/-- The acceptance condition stated by the claim, as written: the rounding is
accepted iff it is `Exact` when the operand type is an integer type, and a
non-`Exact` variant when the operand type is a floating-point type. -/
def claim_rounding_ok (t : IrType) (r : Rounding) : Bool :=
  match t with
  | .I _ => r == Rounding.Exact
  | .F _ => r != Rounding.Exact
  | .PtrTo _ => false

/-- The amended acceptance condition: the `Exact`-iff-integer rule only
governs the rounding-requiring operators (the `Add`/`Sub`/`Div`/`And`/`Or`
binary operators, `Mul` and `Mad`, judged on their first operand, with
pointer operands treated like integers); the comparison and `Max` binary
operators accept exactly the `Exact` rounding whatever the operand type; the
remaining operators carry no rounding mode and always pass. -/
def amended_rounding_ok : Operator → Bool
  | .binOp op lhs _ r =>
      match op with
      | .Add | .Sub | .Div | .And | .Or =>
          (lhs.is_float && r != Rounding.Exact) ||
            (!lhs.is_float && r == Rounding.Exact)
      | .Lt | .Leq | .Equals | .Max => r == Rounding.Exact
  | .mul lhs _ r _ =>
      (lhs.is_float && r != Rounding.Exact) ||
        (!lhs.is_float && r == Rounding.Exact)
  | .mad mulLhs _ _ r =>
      (mulLhs.is_float && r != Rounding.Exact) ||
        (!mulLhs.is_float && r == Rounding.Exact)
  | .unaryOp _ | .ld .. | .st .. | .tmpLd .. | .tmpSt .. => true

end Telamon

namespace Telamon

/- ================================================================== -/
/- §B. CUDA evaluator — `src/backend/cuda/src/context.rs`              -/
/- ================================================================== -/

/-- `SKIP_THRESHOLD` (`context.rs` line 21). The in-source doc comment reads:
"Candidates with a runtime above `SKIP_THRESHOLD * cut` are skipped after the
first evaluation." -/
def SKIP_THRESHOLD : ℚ := 3

/-- `NUM_EVALS` (`context.rs` line 24): number of evaluations to perform on
each candidate. -/
def NUM_EVALS : Nat := 20

/-- `NUM_OUTLIERS` (`context.rs` line 26): number of outlier evaluations to
discard. -/
def NUM_OUTLIERS : Nat := 4

/-- `Context::ticks_to_ns` (`context.rs` lines 123-125): clock ticks divided
by the SMX clock rate. -/
def ticks_to_ns (smx_clock : ℚ) (ticks : Nat) : ℚ := (ticks : ℚ) / smx_clock

/-- The value returned by `Context::eval_runtime`: either `f64::INFINITY`
(candidate skipped because of its bound) or a finite number of nanoseconds. -/
inductive EvalOutcome where
  | infinity
  | val (ns : ℚ)
deriving DecidableEq, Repr

/-- Stable insertion into a sorted list: `a` goes before the first element it
compares `le` to, so earlier elements stay before equal later ones. -/
def insertSorted (le : α → α → Bool) (a : α) : List α → List α
  | [] => [a]
  | b :: l => if le a b then a :: b :: l else b :: insertSorted le a l

/-- Stable sort (models itertools `sorted`/`sorted_by`, which are stable). -/
def sortStable (le : α → α → Bool) (l : List α) : List α :=
  l.foldr (insertSorted le) []

/-- The adaptive evaluation count of `eval_runtime` (`context.rs` line 100):
`max(1, min(NUM_EVALS, (1.0e9 / t0) as usize))`. Rust float-to-int casts
saturate, so at `t0 = 0` the division yields `+∞` and the cast exceeds
`NUM_EVALS`; a negative `t0` saturates to `0`. -/
def adjusted_num_evals (t0 : ℚ) : Nat :=
  max 1 (min NUM_EVALS (if t0 = 0 then NUM_EVALS else (1000000000 / t0).floor.toNat))

/-- `Context::eval_runtime` (`context.rs` lines 83-120). The thunk's
successive `execute()` calls are modelled by an indexed sequence of results
(`thunk i` is the `i`-th call, the call at index 0 producing `t0`);
`mode.skip_bad_candidates()` is modelled by the boolean
`skip_bad_candidates`; `cmp_f64` on the (NaN-free) deltas is the ordinary
order on `ℚ`. -/
def eval_runtime (smx_clock : ℚ) (thunk : Nat → Except Unit Nat)
    (bound current_best : ℚ) (skip_bad_candidates : Bool) :
    Except Unit EvalOutcome :=
  if bound ≥ current_best ∧ skip_bad_candidates = true then
    Except.ok EvalOutcome.infinity
  else
    (thunk 0).bind fun ticks0 =>
      let t0 := ticks_to_ns smx_clock ticks0
      if skip_bad_candidates = true ∧ t0 * SKIP_THRESHOLD ≥ bound then
        Except.ok (EvalOutcome.val t0)
      else
        let num_evals := adjusted_num_evals t0
        let num_samples := max 1 (num_evals - NUM_OUTLIERS)
        ((List.range num_evals).mapM (fun i => thunk (1 + i))).bind fun ticks =>
          let runtimes_by_value := sortStable Nat.ble ticks
          let median :=
            ticks_to_ns smx_clock (runtimes_by_value.getD (num_evals / 2) 0)
          let runtimes_by_delta :=
            sortStable (fun lhs rhs => decide (|lhs - median| ≤ |rhs - median|))
              (runtimes_by_value.map (ticks_to_ns smx_clock))
          Except.ok (EvalOutcome.val
            ((runtimes_by_delta.take num_samples).sum / (num_samples : ℚ)))

/-- The measurement procedure in the claim's words, applied to a list of
measured tick counts: sort the samples, take the median, discard the
`NUM_OUTLIERS` samples furthest from the median (always keeping at least
one), and return the average of the kept samples. -/
def claim_eval_average (smx_clock : ℚ) (ticks : List Nat) : ℚ :=
  let by_value := sortStable Nat.ble ticks
  let median := ticks_to_ns smx_clock (by_value.getD (ticks.length / 2) 0)
  let by_delta :=
    sortStable (fun lhs rhs => decide (|lhs - median| ≤ |rhs - median|))
      (by_value.map (ticks_to_ns smx_clock))
  let kept := by_delta.take (max 1 (ticks.length - NUM_OUTLIERS))
  kept.sum / (kept.length : ℚ)

/-- Thunk for the C3 failing input: the first execution measures 2 ticks,
every further execution measures 100 ticks. -/
def c3_thunk : Nat → Except Unit Nat :=
  fun i => if i = 0 then Except.ok 2 else Except.ok 100

/-- Thunk for the C4 counterexample: a slow candidate whose first execution
takes 2 s, whose second takes 4 s and whose further executions take 8 s. -/
def c4_thunk : Nat → Except Unit Nat :=
  fun i =>
    if i = 0 then Except.ok 2000000000
    else if i = 1 then Except.ok 4000000000
    else Except.ok 8000000000

end Telamon

namespace Telamon

/- ================================================================== -/
/- §C. Search space, decision store, candidates                        -/
/-     `src/src/search_space/mod.rs`, `src/src/explorer/candidate.rs`  -/
/- ================================================================== -/

/-- Modelled from the spec: the domain of one choice (§3 "Value types", §4.2
"Domain algebra"; the `choices` module holding the generated domain types is
not part of the sources). A domain is a finite set of still-allowed values,
represented as a bitset over the choice's universe; `intersect` is bitwise
and, `is_failed` is emptiness. -/
abbrev Domain := Nat

/-- Modelled from the spec: a domain is constrained when it is a singleton
(§4.2 "`is_constrained()` — all domains singleton"): exactly one bit set. -/
def Domain.is_constrained (d : Domain) : Bool :=
  d != 0 && Nat.land d (d - 1) == 0

/-- Modelled from the spec: the decision store (§3, §4.2) maps each choice
key to its current domain; keys are dense indices. -/
abbrev DomainStore := List Domain

/-- Modelled from the spec: `get` on the store (missing keys never occur in
the real store; they are read as the empty domain here). -/
def DomainStore.get (s : DomainStore) (k : Nat) : Domain := s.getD k 0

/-- Modelled from the spec: `is_constrained()` — all domains singleton. -/
def DomainStore.is_constrained (s : DomainStore) : Bool :=
  s.all Domain.is_constrained

/-- Modelled from the spec: apply a list of atomic restrictions (§4.2
`restrict(name, args, allowed)`): each intersects the stored domain with the
allowed set, records the key in the diff when the domain shrank, and fails
(`Infeasible`) when a domain becomes empty. -/
def applyRestricts : List (Nat × Nat) → DomainStore → Option (DomainStore × List Nat)
  | [], s => some (s, [])
  | (k, allowed) :: rest, s =>
      let old := DomainStore.get s k
      let d := Nat.land old allowed
      if d = 0 then none
      else
        match applyRestricts rest (s.set k d) with
        | none => none
        | some (s2, changed) =>
            some (s2, if d = old then changed else k :: changed)

/-- Modelled from the spec: on-change actions (§4.3). For each changed key,
`filters k s` returns the `(key, allowed)` restrictions produced by
re-running the filter, counter and trigger actions registered on `k` against
the current store; the generated tables that define them are not part of the
sources, so they are kept abstract. -/
abbrev Filters := Nat → DomainStore → List (Nat × Nat)

/-- Modelled from the spec: the propagation loop (§4.3): pop a changed key
from the work queue, evaluate its on-change actions, apply the resulting
restrictions, enqueue the new diffs, until the queue is empty; fail when a
restriction empties a domain. The fuel bounds the number of processed queue
items (the real loop runs to the unique fixpoint). -/
def propagate (filters : Filters) :
    Nat → List Nat → DomainStore → Option DomainStore
  | _, [], s => some s
  | 0, _ :: _, _ => none
  | fuel + 1, k :: queue, s =>
      match applyRestricts (filters k s) s with
      | none => none
      | some (s2, changed) => propagate filters fuel (changed ++ queue) s2

/-- Modelled from the spec: `choices::apply_decisions` (called by
`SearchSpace::apply_decisions`, `mod.rs` lines 74-77; the generated module is
not part of the sources): apply each decision and propagate its diffs. -/
def applyDecisions (filters : Filters) (fuel : Nat) :
    List (Nat × Nat) → DomainStore → Option DomainStore
  | [], s => some s
  | a :: rest, s =>
      match applyRestricts [a] s with
      | none => none
      | some (s2, changed) =>
          match propagate filters fuel changed s2 with
          | none => none
          | some s3 => applyDecisions filters fuel rest s3

/-- `SearchSpace` (`search_space/mod.rs` lines 26-30): an IR instance plus
the domain store. The IR instance is represented by the one piece of data
the claims read from it: `Function::layouts_to_lower()`, the list of layouts
still to be lowered (the `ir` module is not part of the sources). -/
structure SearchSpace where
  layouts_to_lower : List Nat
  domain : DomainStore
deriving DecidableEq, Repr

/-- `SearchSpace::apply_decisions` (`mod.rs` lines 74-77): delegate to the
generated `choices::apply_decisions` on the domain store. -/
def SearchSpace.apply_decisions (filters : Filters) (fuel : Nat)
    (s : SearchSpace) (actions : List (Nat × Nat)) : Option SearchSpace :=
  (applyDecisions filters fuel actions s.domain).map
    (fun d => { s with domain := d })

/-- The `dim_map::lower_layout` rewrite invoked by `SearchSpace::lower_layout`
(`mod.rs` lines 80-91); the `dim_map` module is not part of the sources, so
the rewrite is abstracted: it returns the updated layouts-to-lower list and
the decisions to apply, or fails. -/
abbrev LowerFn :=
  SearchSpace → Nat → List Nat → List Nat → Option (List Nat × List (Nat × Nat))

/-- `SearchSpace::lower_layout` (`mod.rs` lines 80-91): run the layout
rewrite on the IR, then apply the produced decisions. -/
def SearchSpace.lower_layout (filters : Filters) (fuel : Nat)
    (lower_fn : LowerFn) (s : SearchSpace) (mem : Nat)
    (st_dims ld_dims : List Nat) : Option SearchSpace :=
  match lower_fn s mem st_dims ld_dims with
  | none => none
  | some (layouts2, actions) =>
      SearchSpace.apply_decisions filters fuel
        { s with layouts_to_lower := layouts2 } actions

/-- `SearchSpace::is_implementation` (`mod.rs` lines 117-121):
`layouts_to_lower` empty and the whole store constrained. -/
def SearchSpace.is_implementation (s : SearchSpace) : Bool :=
  s.layouts_to_lower.isEmpty && DomainStore.is_constrained s.domain

/-- `explorer::choice::ActionEx` as matched in `explorer/candidate.rs` lines
106-112 (the defining module is not part of the sources; modelled from the
spec §3 "Action"): an atomic domain restriction or a layout lowering. -/
inductive ActionEx where
  | action (key allowed : Nat)
  | lowerLayout (mem : Nat) (st_dims ld_dims : List Nat)
deriving DecidableEq, Repr

/-- `Candidate` (`explorer/candidate.rs` lines 17-28): a search-space node
with its performance-model lower bound (in ns; only its `value()` is used
here), its depth in the search tree and the `rpds` list of actions already
taken (`push_front` is cons). -/
structure Candidate where
  space : SearchSpace
  bound : ℚ
  depth : Nat
  actions : List ActionEx
deriving DecidableEq, Repr

/-- `Candidate::with_actions` (`candidate.rs` lines 36-48): the depth is the
length of the action list. -/
def Candidate.with_actions (space : SearchSpace) (bound : ℚ)
    (actions : List ActionEx) : Candidate :=
  { space, bound, depth := actions.length, actions }

/-- `Candidate::new` (`candidate.rs` lines 31-34): depth 0, no actions. -/
def Candidate.new (space : SearchSpace) (bound : ℚ) : Candidate :=
  Candidate.with_actions space bound []

/-- `Candidate::apply_decision` (`candidate.rs` lines 99-129): clone the
space, apply the action (an atomic decision or a layout lowering), recompute
the bound with the performance model (`bound_fn`, external to this
embedding), push the action in front and increment the depth. The branch at
lines 115-121 only emits a debug log when the bound decreased. -/
def Candidate.apply_decision (filters : Filters) (fuel : Nat)
    (lower_fn : LowerFn) (bound_fn : SearchSpace → ℚ)
    (c : Candidate) (action : ActionEx) : Option Candidate :=
  (match action with
    | .action key allowed =>
        SearchSpace.apply_decisions filters fuel c.space [(key, allowed)]
    | .lowerLayout mem st_dims ld_dims =>
        SearchSpace.lower_layout filters fuel lower_fn c.space mem
          st_dims ld_dims).map
    fun space =>
      { space, bound := bound_fn space, depth := c.depth + 1,
        actions := action :: c.actions }

/-- `Candidate::apply_choice` (`candidate.rs` lines 50-67): apply every
action of the choice to the candidate, drop the failed ones (only a trace is
logged for them, and an info log when all fail), and return the surviving
children. -/
def Candidate.apply_choice (filters : Filters) (fuel : Nat)
    (lower_fn : LowerFn) (bound_fn : SearchSpace → ℚ)
    (c : Candidate) (choice : List ActionEx) : List Candidate :=
  choice.filterMap (Candidate.apply_decision filters fuel lower_fn bound_fn c)

/-- `s2` refines `s1`: every choice's domain in `s2` is a subset of the
corresponding domain in `s1` (bitset inclusion, bit by bit). -/
def DomainStore.SubsetOf (s2 s1 : DomainStore) : Prop :=
  ∀ k i, (DomainStore.get s2 k).testBit i = true →
    (DomainStore.get s1 k).testBit i = true

/-- Concrete on-change actions used to instantiate the abstract `Filters` in
witnesses: narrowing key 0 narrows key 1 to the value 1. -/
def demo_filters : Filters :=
  fun k _ => if k = 0 then [(1, 1)] else []

/-- Concrete layout rewrite used to instantiate `LowerFn` in witnesses. -/
def demo_lower : LowerFn := fun _ _ _ _ => none

/-- Concrete performance model used to instantiate `bound_fn` in witnesses. -/
def demo_bound : SearchSpace → ℚ := fun _ => 0

end Telamon

namespace Telamon

/- ================================================================== -/
/- §D. CUDA memory model — `src/backend/cuda/src/mem_model.rs`         -/
/- ================================================================== -/

/-- The device description fields read by the memory analysis (the `Gpu`
struct itself is not part of the sources; modelled from the spec §6
`device_info()`: "L1/L2 cache line and size, wrap size"). The values of
`gpu_dummy` below follow the spec's glossary ("Wrap: the device's SIMT
execution width (e.g. 32 threads)") and typical Kepler-class line sizes. -/
structure Gpu where
  wrap_size : Nat
  l1_cache_line : Nat
  l2_cache_line : Nat
  shared_bank_stride : Nat
deriving DecidableEq, Repr

/-- `model::size::Range` (not part of the sources; modelled from the spec:
lower/upper bound of a partially specified size, as built in the
`mem_model.rs` tests with `Range { min, max }`). -/
structure SizeRange where
  min : Nat
  max : Nat
deriving DecidableEq, Repr

/-- `ThreadDimInfo` (`mem_model.rs` lines 168-178). `stride_factors_gcd` is
the `gcd` field of the `size::FactorRange`; the tests build it with
`FactorRange::new_fixed(stride)`, i.e. `gcd = stride`. -/
structure ThreadDimInfo where
  id : Nat
  is_active_thread : Bool
  is_partial_dim : Bool
  size : SizeRange
  stride : SizeRange
  stride_factors_gcd : Nat
deriving DecidableEq, Repr

instance : Inhabited ThreadDimInfo :=
  ⟨⟨0, false, false, ⟨0, 0⟩, ⟨0, 0⟩, 0⟩⟩

/-- `ThreadDimInfo::partial_size` (`mem_model.rs` lines 181-192). -/
def ThreadDimInfo.partial_size (d : ThreadDimInfo) : Nat :=
  if d.is_partial_dim then d.size.max - d.size.min + 1 else d.size.min

/-- `increment_index` (`mem_model.rs` lines 401-409): bump `indexes[pos]`
modulo the dimension's partial size; the flag says the next index must be
incremented too. -/
def increment_index (pos : Nat) (dims : List ThreadDimInfo)
    (indexes : List Nat) : List Nat × Bool :=
  let v := indexes.getD pos 0 + 1
  if v < (dims.getD pos default).partial_size then (indexes.set pos v, false)
  else (indexes.set pos 0, true)

/-- One pass of the `for (i, dim)` loop inside `wrap_access_offsets`
(`mem_model.rs` lines 366-378): increment the indexes with carry, and when a
partial dimension's index is positive, reset its base dimension's index to
`size.min - 1`. Fails where the source panics: partial dimension ordered
before its base (`unwrap!`), or the found base being itself partial
(`assert!`). -/
def wrap_offsets_pass (dims : List ThreadDimInfo) (indexes : List Nat) :
    Option (List Nat × Bool) :=
  (List.range dims.length).foldlM
    (fun (st : List Nat × Bool) i =>
      let st2 := if st.2 then increment_index i dims st.1 else st
      let indexes := st2.1
      let incr := st2.2
      let dim := dims.getD i default
      if dim.is_partial_dim ∧ 0 < indexes.getD i 0 then
        match (dims.take i).findIdx? (fun d => d.id == dim.id) with
        | none => none
        | some real_pos =>
            if (dims.getD real_pos default).is_partial_dim then none
            else
              some (indexes.set real_pos
                ((dims.getD real_pos default).size.min - 1), incr)
      else some (indexes, incr))
    (indexes, true)

/-- The offset of the current thread (`mem_model.rs` lines 379-390): the sum
over the dimensions of `index * stride`, the stride being the factors' gcd
when `use_gcd` and the minimal stride otherwise. -/
def wrap_offset (dims : List ThreadDimInfo) (use_gcd : Bool)
    (indexes : List Nat) : Nat :=
  (List.range dims.length).foldl
    (fun acc i =>
      let dim := dims.getD i default
      let stride := if use_gcd then dim.stride_factors_gcd else dim.stride.min
      acc + indexes.getD i 0 * stride)
    0

/-- The `while` loop of `wrap_access_offsets` (`mem_model.rs` lines 365-396)
with explicit fuel: every iteration pushes exactly one offset, so
`gpu.wrap_size + 1` units of fuel are never exhausted. -/
def wrap_offsets_loop (dims : List ThreadDimInfo) (use_gcd : Bool) (gpu : Gpu) :
    Nat → List Nat → List Nat → Option (List Nat)
  | 0, _, _ => none
  | fuel + 1, indexes, offsets =>
      if offsets.length < gpu.wrap_size then
        match wrap_offsets_pass dims indexes with
        | none => none
        | some (indexes2, incr) =>
            let offset := wrap_offset dims use_gcd indexes2
            if incr then some offsets
            else
              wrap_offsets_loop dims use_gcd gpu fuel indexes2
                (offsets ++ [offset])
      else some offsets

/-- `wrap_access_offsets` (`mem_model.rs` lines 357-397): the offsets,
relative to the first thread, of the access of each thread in a wrap. -/
def wrap_access_offsets (thread_dims : List ThreadDimInfo) (use_gcd : Bool)
    (gpu : Gpu) : Option (List Nat) :=
  wrap_offsets_loop thread_dims use_gcd gpu (gpu.wrap_size + 1)
    (List.replicate thread_dims.length 0) [0]

/-- `cmp_thread_dims` (`mem_model.rs` lines 336-353): compare the reversed
stride values (gcd with the bank replay distance when `use_gcd`), so the
heap's maximum is the smallest stride; ties broken on the reversed partial
flags. -/
def cmp_thread_dims (lhs rhs : ThreadDimInfo) (use_gcd : Bool)
    (gpu : Gpu) : Ordering :=
  let vals :=
    if use_gcd then
      let replay_distance := gpu.wrap_size * gpu.shared_bank_stride
      (Nat.gcd lhs.stride_factors_gcd replay_distance,
        Nat.gcd rhs.stride_factors_gcd replay_distance)
    else (lhs.stride.min, rhs.stride.min)
  (compare vals.2 vals.1).then (compare rhs.is_partial_dim lhs.is_partial_dim)

/-- `BinaryHeap::pop`: remove a maximal element for the comparator. Among
equal keys the earliest-inserted one is taken (the Rust binary heap leaves
the order of equal elements unspecified). -/
def heap_pop (cmp : ThreadDimInfo → ThreadDimInfo → Ordering)
    (l : List ThreadDimInfo) : Option (ThreadDimInfo × List ThreadDimInfo) :=
  match l with
  | [] => none
  | a :: _ =>
      let idx := (List.range l.length).foldl
        (fun best i =>
          if cmp (l.getD best a) (l.getD i a) = Ordering.lt then i else best) 0
      some (l.getD idx a, l.eraseIdx idx)

/-- The loop of `sort_thread_dims` (`mem_model.rs` lines 316-330): pop the
heap, accumulate the covered size (partial dimensions scale the total by
`max/min`), append to the output, release the dimensions whose inner-count
equals the new output length, and stop once a full wrap is covered.
`num_inner` gives, per dimension id, the number of sure thread dimensions
that must be nested inside it (lines 299-315; the source computes it from
the store's `ThreadMapping` domains — generated code not part of the
sources, so it is kept abstract and instantiated per scenario, modelled from
the spec). -/
def sort_loop (dims : List ThreadDimInfo) (num_inner : Nat → Nat)
    (use_gcd : Bool) (gpu : Gpu) :
    Nat → List ThreadDimInfo → List ThreadDimInfo → Nat → List ThreadDimInfo
  | 0, _, out, _ => out
  | fuel + 1, available, out, total =>
      match heap_pop (fun a b => cmp_thread_dims a b use_gcd gpu) available with
      | none => out
      | some (d, rest) =>
          let total :=
            if d.is_partial_dim then total / d.size.min * d.size.max
            else total * d.size.min
          let out := out ++ [d]
          let available :=
            rest ++ dims.filter (fun x => num_inner x.id = out.length)
          if gpu.wrap_size ≤ total then out
          else sort_loop dims num_inner use_gcd gpu fuel available out total

/-- `sort_thread_dims` (`mem_model.rs` lines 286-333): dimensions whose
inner-count is 0 seed the heap; each popped dimension may release more. -/
def sort_thread_dims (dims : List ThreadDimInfo) (num_inner : Nat → Nat)
    (use_gcd : Bool) (gpu : Gpu) : List ThreadDimInfo :=
  sort_loop dims num_inner use_gcd gpu (dims.length + 1)
    (dims.filter (fun x => num_inner x.id = 0)) [] 1

/-- `offsets_global_coalescing` (`mem_model.rs` lines 499-515): count the
distinct L1/L2 cache lines touched by the offsets (the hash sets are primed
with line 0) and divide by the number of offsets; the replay factor is the
L1 line count. Returns `(l1_coalescing, l2_coalescing, replay)`. -/
def offsets_global_coalescing (offsets : List Nat) (gpu : Gpu) : ℚ × ℚ × ℚ :=
  let l1_lines := (0 :: offsets.map (fun o => o / gpu.l1_cache_line)).dedup
  let l2_lines := (0 :: offsets.map (fun o => o / gpu.l2_cache_line)).dedup
  ((l1_lines.length : ℚ) / (offsets.length : ℚ),
    (l2_lines.length : ℚ) / (offsets.length : ℚ),
    (l1_lines.length : ℚ))

/-- `global_coalescing` (`mem_model.rs` lines 472-496): sort the thread
dimensions (plain strides), compute the wrap offsets (gcd strides), count
the lines; when the last sorted dimension may be inactive, retry without it
and keep the minima. -/
def global_coalescing (thread_dims : List ThreadDimInfo)
    (num_inner : Nat → Nat) (gpu : Gpu) : Option (ℚ × ℚ × ℚ) :=
  let sorted := sort_thread_dims thread_dims num_inner false gpu
  match wrap_access_offsets sorted true gpu with
  | none => none
  | some offsets =>
      let res := offsets_global_coalescing offsets gpu
      if (sorted.getLast?.map (fun d => !d.is_active_thread)).getD false then
        match wrap_access_offsets (sorted.take (sorted.length - 1)) true gpu with
        | none => none
        | some offsets2 =>
            let res2 := offsets_global_coalescing offsets2 gpu
            some (min res.1 res2.1, min res.2.1 res2.2.1, min res.2.2 res2.2.2)
      else some res

/-- The fields of `MemInfo` (`mem_model.rs` lines 20-36) that the global
branch of `info` fills. -/
structure MemInfoG where
  l1_coalescing : ℚ
  l2_coalescing : ℚ
  memory_transactions : ℚ
  access_global : Bool
deriving DecidableEq, Repr

/-- The global-memory branch of `info` (`mem_model.rs` lines 113-140) for an
access that is certainly not shared (`is_shared_access = Trivalent::False`):
the L1/L2 coalescing come from `global_coalescing` and `memory_transactions`
is `min(replay, f64::INFINITY) = replay`. -/
def info_global (thread_dims : List ThreadDimInfo) (num_inner : Nat → Nat)
    (gpu : Gpu) : Option MemInfoG :=
  (global_coalescing thread_dims num_inner gpu).map fun res =>
    { l1_coalescing := res.1, l2_coalescing := res.2.1,
      memory_transactions := res.2.2, access_global := true }

/-- Modelled from the spec: the test GPU (`Gpu::dummy()` is not part of the
sources): SIMT width 32, 128-byte L1 lines, 32-byte L2 lines, 4-byte shared
banks. -/
def gpu_dummy : Gpu := ⟨32, 128, 32, 4⟩

/-- The C7 scenario's strided dimension: a sure thread dimension of wrap
size iterating the load with a stride of one L1 cache line (the test's `d0`,
`mem_model.rs` lines 655-679). -/
def c7_strided_dim : ThreadDimInfo := ⟨0, true, false, ⟨32, 32⟩, ⟨128, 128⟩, 128⟩

/-- The C7 scenario's other dimension: a sure thread dimension of wrap size
absent from the access pattern (stride 0, the test's `d1`). -/
def c7_other_dim : ThreadDimInfo := ⟨1, true, false, ⟨32, 32⟩, ⟨0, 0⟩, 0⟩

/-- Modelled from the spec: with `Order::INNER` between the strided
dimension and the other one, the strided dimension is the inner thread
dimension, so the other one counts one sure thread dimension nested inside
it (`num_inner` as computed at `mem_model.rs` lines 299-315 from the
`ThreadMapping` store). -/
def c7_inner_num_inner : Nat → Nat := fun id => if id = 1 then 1 else 0

/-- Modelled from the spec: with `Order::OUTER`, the strided dimension is
the outer thread dimension. -/
def c7_outer_num_inner : Nat → Nat := fun id => if id = 0 then 1 else 0

/-- The C8 base dimension of id 0: size in `[2..4]`, stride 0 (the test's
`beg_0`, `mem_model.rs` lines 765-785). -/
def c8_beg_0 : ThreadDimInfo := ⟨0, true, false, ⟨2, 4⟩, ⟨0, 0⟩, 0⟩

/-- The C8 partial part of dimension 0. -/
def c8_end_0 : ThreadDimInfo := ⟨0, true, true, ⟨2, 4⟩, ⟨0, 0⟩, 0⟩

/-- The C8 base dimension of id 1: size in `[2..4]`, stride 1. -/
def c8_beg_1 : ThreadDimInfo := ⟨1, true, false, ⟨2, 4⟩, ⟨1, 1⟩, 1⟩

/-- The C8 partial part of dimension 1. -/
def c8_end_1 : ThreadDimInfo := ⟨1, true, true, ⟨2, 4⟩, ⟨1, 1⟩, 1⟩

end Telamon

deriving instance DecidableEq for Except

/- ================================================================== -/
/- Theorems                                                            -/
/- ================================================================== -/

namespace Telamon

section
set_option allowUnsafeReducibility true
attribute [local semireducible] Rat.mul Rat.add Rat.sub Rat.inv Rat.blt
set_option maxRecDepth 100000

theorem insertSorted_length (le : α → α → Bool) (a : α) (l : List α) :
    (insertSorted le a l).length = l.length + 1 := by
  induction l with
  | nil => rfl
  | cons b l ih =>
      by_cases h : le a b = true <;> simp [insertSorted, h, ih]

theorem sortStable_length (le : α → α → Bool) (l : List α) :
    (sortStable le l).length = l.length := by
  induction l with
  | nil => rfl
  | cons a l ih =>
      simp only [sortStable, List.foldr] at ih ⊢
      rw [insertSorted_length, ih, List.length_cons]

theorem mapM_except_ok_loop {α β : Type} (f : α → β) (l : List α) (acc : List β) :
    List.mapM.loop (fun a => (Except.ok (f a) : Except Unit β)) l acc =
      Except.ok (acc.reverse ++ l.map f) := by
  induction l generalizing acc with
  | nil => simp [List.mapM.loop, pure, Except.pure]
  | cons a l ih => simp [List.mapM.loop, bind, Except.bind, ih]

theorem mapM_except_ok {α β : Type} (f : α → β) (l : List α) :
    (l.mapM (fun a => (Except.ok (f a) : Except Unit β))) = Except.ok (l.map f) := by
  simp [List.mapM, mapM_except_ok_loop]

theorem get_set_cases (s : List Nat) (k j v : Nat) :
    DomainStore.get (s.set k v) j =
      if k = j ∧ k < s.length then v else DomainStore.get s j := by
  unfold DomainStore.get
  rw [List.getD_eq_getElem?_getD, List.getElem?_set, List.getD_eq_getElem?_getD]
  by_cases h1 : k = j
  · subst h1
    by_cases h2 : k < s.length
    · simp [h2]
    · simp only [h2, if_false, and_false, if_neg, not_false_iff]
      rw [List.getElem?_eq_none (Nat.le_of_not_lt h2)]
      simp [h2]
  · simp [h1]

theorem land_testBit_left (a b i : Nat)
    (h : (Nat.land a b).testBit i = true) : a.testBit i = true := by
  have h2 : (a &&& b).testBit i = true := h
  rw [Nat.testBit_land] at h2
  simp only [Bool.and_eq_true] at h2
  exact h2.1

theorem subsetOf_refl (s : DomainStore) : DomainStore.SubsetOf s s :=
  fun _ _ h => h

theorem subsetOf_trans {s3 s2 s1 : DomainStore}
    (h32 : DomainStore.SubsetOf s3 s2) (h21 : DomainStore.SubsetOf s2 s1) :
    DomainStore.SubsetOf s3 s1 :=
  fun k i h => h21 k i (h32 k i h)

theorem set_land_subsetOf (s : DomainStore) (k allowed : Nat) :
    DomainStore.SubsetOf (s.set k (Nat.land (DomainStore.get s k) allowed)) s := by
  intro j i h
  rw [get_set_cases] at h
  by_cases hc : k = j ∧ k < s.length
  · rw [if_pos hc] at h
    rcases hc with ⟨rfl, _⟩
    exact land_testBit_left _ _ _ h
  · rwa [if_neg hc] at h

theorem applyRestricts_subsetOf :
    ∀ (l : List (Nat × Nat)) (s s2 : DomainStore) (changed : List Nat),
      applyRestricts l s = some (s2, changed) → DomainStore.SubsetOf s2 s := by
  intro l
  induction l with
  | nil =>
      intro s s2 changed h
      simp only [applyRestricts] at h
      cases h
      exact subsetOf_refl _
  | cons a rest ih =>
      intro s s2 changed h
      obtain ⟨k, allowed⟩ := a
      simp only [applyRestricts] at h
      by_cases hz : Nat.land (DomainStore.get s k) allowed = 0
      · rw [if_pos hz] at h
        cases h
      · rw [if_neg hz] at h
        cases hrec : applyRestricts rest
            (s.set k (Nat.land (DomainStore.get s k) allowed)) with
        | none => rw [hrec] at h; cases h
        | some p =>
            obtain ⟨s3, ch⟩ := p
            rw [hrec] at h
            cases h
            exact subsetOf_trans (ih _ _ _ hrec) (set_land_subsetOf s k allowed)

theorem propagate_subsetOf (filters : Filters) :
    ∀ (fuel : Nat) (queue : List Nat) (s s2 : DomainStore),
      propagate filters fuel queue s = some s2 → DomainStore.SubsetOf s2 s := by
  intro fuel
  induction fuel with
  | zero =>
      intro queue s s2 h
      cases queue with
      | nil => simp only [propagate] at h; cases h; exact subsetOf_refl _
      | cons k q => simp only [propagate] at h; cases h
  | succ fuel ih =>
      intro queue s s2 h
      cases queue with
      | nil => simp only [propagate] at h; cases h; exact subsetOf_refl _
      | cons k q =>
          simp only [propagate] at h
          cases hr : applyRestricts (filters k s) s with
          | none => rw [hr] at h; cases h
          | some p =>
              obtain ⟨s3, changed⟩ := p
              rw [hr] at h
              exact subsetOf_trans (ih _ _ _ h)
                (applyRestricts_subsetOf _ _ _ _ hr)

theorem applyDecisions_subsetOf (filters : Filters) (fuel : Nat) :
    ∀ (actions : List (Nat × Nat)) (s s2 : DomainStore),
      applyDecisions filters fuel actions s = some s2 →
        DomainStore.SubsetOf s2 s := by
  intro actions
  induction actions with
  | nil =>
      intro s s2 h
      simp only [applyDecisions] at h; cases h; exact subsetOf_refl _
  | cons a rest ih =>
      intro s s2 h
      simp only [applyDecisions] at h
      cases hr : applyRestricts [a] s with
      | none => rw [hr] at h; cases h
      | some p =>
          obtain ⟨s3, changed⟩ := p
          rw [hr] at h
          have h2 : (match propagate filters fuel changed s3 with
              | none => none
              | some s4 => applyDecisions filters fuel rest s4) = some s2 := h
          cases hp : propagate filters fuel changed s3 with
          | none => rw [hp] at h2; cases h2
          | some s4 =>
              rw [hp] at h2
              exact subsetOf_trans (subsetOf_trans (ih _ _ h2)
                  (propagate_subsetOf filters fuel changed _ _ hp))
                (applyRestricts_subsetOf _ _ _ _ hr)

/-- C1: every decision list applied through `SearchSpace::apply_decisions`
(and the constraint propagation it triggers, for any on-change action
tables) only narrows the store: each choice's domain in the resulting space
is a subset of that choice's domain in the original space. -/
theorem c1_apply_decisions_narrows (filters : Filters) (fuel : Nat)
    (actions : List (Nat × Nat)) (s s2 : SearchSpace)
    (h : SearchSpace.apply_decisions filters fuel s actions = some s2) :
    DomainStore.SubsetOf s2.domain s.domain := by
  unfold SearchSpace.apply_decisions at h
  cases hd : applyDecisions filters fuel actions s.domain with
  | none => rw [hd] at h; cases h
  | some d =>
      rw [hd] at h
      cases h
      exact applyDecisions_subsetOf filters fuel actions _ _ hd

/-- C1 witness: applying the decision `(0, 1)` to the store `[3, 3]` under
`demo_filters` succeeds with the narrowed store `[1, 1]`, and the theorem
transports bit 0 of key 0 back to the original store. -/
theorem c1_witness :
    (DomainStore.get (⟨[], [3, 3]⟩ : SearchSpace).domain 0).testBit 0 = true :=
  c1_apply_decisions_narrows demo_filters 4 [(0, 1)] ⟨[], [3, 3]⟩ ⟨[], [1, 1]⟩
    (by decide) 0 0 (by decide)

/-- C6: `Candidate::apply_choice` absorbs failing actions: an action whose
application fails (e.g. with `Infeasible`) never surfaces as an error — it is
simply omitted from the returned list, leaving the other children unchanged —
and when every action of the choice fails the result is the empty list. -/
theorem c6_apply_choice_absorbs (filters : Filters) (fuel : Nat)
    (lower_fn : LowerFn) (bound_fn : SearchSpace → ℚ) (c : Candidate) :
    (∀ (l₁ : List ActionEx) (a : ActionEx) (l₂ : List ActionEx),
        Candidate.apply_decision filters fuel lower_fn bound_fn c a = none →
          Candidate.apply_choice filters fuel lower_fn bound_fn c (l₁ ++ a :: l₂) =
            Candidate.apply_choice filters fuel lower_fn bound_fn c (l₁ ++ l₂)) ∧
      (∀ choice : List ActionEx,
        (∀ a ∈ choice,
            Candidate.apply_decision filters fuel lower_fn bound_fn c a = none) →
          Candidate.apply_choice filters fuel lower_fn bound_fn c choice = []) := by
  constructor
  · intro l₁ a l₂ h
    simp [Candidate.apply_choice, List.filterMap_append, List.filterMap_cons, h]
  · intro choice h
    simp only [Candidate.apply_choice, List.filterMap_eq_nil_iff]
    exact h

/-- C6 witness: restricting key 0 of the store `[1]` to the disjoint set `2`
empties the domain, so the single-action choice yields the empty list. -/
theorem c6_witness :
    Candidate.apply_choice demo_filters 1 demo_lower demo_bound
      (Candidate.new ⟨[], [1]⟩ 0) [ActionEx.action 0 2] = [] :=
  (c6_apply_choice_absorbs demo_filters 1 demo_lower demo_bound
      (Candidate.new ⟨[], [1]⟩ 0)).2
    [ActionEx.action 0 2] (by decide)

/-- C9: `SearchSpace::is_implementation` holds iff the IR's list of layouts
still to lower is empty and every domain in the store is constrained; in
particular a space whose domains are all singletons but that has a pending
layout lowering is not an implementation. -/
theorem c9_is_implementation :
    (∀ s : SearchSpace, s.is_implementation = true ↔
        (s.layouts_to_lower = [] ∧ DomainStore.is_constrained s.domain = true)) ∧
      SearchSpace.is_implementation ⟨[7], [1, 2, 4]⟩ = false ∧
      DomainStore.is_constrained [1, 2, 4] = true := by
  refine ⟨?_, by decide, by decide⟩
  intro s
  simp [SearchSpace.is_implementation, List.isEmpty_iff]

/-- C10: `Candidate::new` and `Candidate::with_actions` set the depth to the
length of the action list, and a successful `Candidate::apply_decision`
prepends exactly the applied action and increments the depth by one, so the
`depth = |actions|` invariant is preserved by every constructor. -/
theorem c10_candidate_depth (filters : Filters) (fuel : Nat)
    (lower_fn : LowerFn) (bound_fn : SearchSpace → ℚ) :
    (∀ (space : SearchSpace) (bound : ℚ),
        (Candidate.new space bound).depth =
          (Candidate.new space bound).actions.length) ∧
      (∀ (space : SearchSpace) (bound : ℚ) (actions : List ActionEx),
        (Candidate.with_actions space bound actions).depth = actions.length ∧
          (Candidate.with_actions space bound actions).actions = actions) ∧
      (∀ (c c' : Candidate) (a : ActionEx),
        Candidate.apply_decision filters fuel lower_fn bound_fn c a = some c' →
          c'.depth = c.depth + 1 ∧ c'.actions = a :: c.actions ∧
            (c.depth = c.actions.length →
              c'.depth = c'.actions.length)) := by
  refine ⟨fun space bound => rfl, fun space bound actions => ⟨rfl, rfl⟩, ?_⟩
  intro c c' a h
  unfold Candidate.apply_decision at h
  rw [Option.map_eq_some'] at h
  obtain ⟨sp, _, rfl⟩ := h
  refine ⟨rfl, rfl, fun hd => ?_⟩
  simp [hd]

/-- C10 witness: applying the decision `(0, 1)` to the fresh candidate on the
store `[3, 3]` produces the depth-1 candidate carrying exactly that action,
with `depth = |actions|`. -/
theorem c10_witness :
    (⟨⟨[], [1, 1]⟩, 0, 1, [ActionEx.action 0 1]⟩ : Candidate).depth =
        (Candidate.new ⟨[], [3, 3]⟩ 0).depth + 1 ∧
      (⟨⟨[], [1, 1]⟩, 0, 1, [ActionEx.action 0 1]⟩ : Candidate).actions =
        ActionEx.action 0 1 :: (Candidate.new ⟨[], [3, 3]⟩ 0).actions ∧
      (⟨⟨[], [1, 1]⟩, 0, 1, [ActionEx.action 0 1]⟩ : Candidate).depth =
        (⟨⟨[], [1, 1]⟩, 0, 1, [ActionEx.action 0 1]⟩ : Candidate).actions.length := by
  have h := (c10_candidate_depth demo_filters 4 demo_lower demo_bound).2.2
    (Candidate.new ⟨[], [3, 3]⟩ 0)
    ⟨⟨[], [1, 1]⟩, 0, 1, [ActionEx.action 0 1]⟩
    (ActionEx.action 0 1) (by decide)
  exact ⟨h.1, h.2.1, h.2.2 (by decide)⟩

/-- C5 counterexample: the rounding checks of `Operator::check` accept `max`
on `f32` operands with `Exact` rounding, although the claim requires a
non-`Exact` rounding variant for floating-point operand types; they also
reject `max` on `f32` with `Nearest` rounding (with an `InvalidRounding`
error) although the claim accepts that combination. -/
theorem c5_counterexample :
    Operator.check_rounding
        (.binOp .Max (.F 32) (.F 32) .Exact) = Except.ok () ∧
      claim_rounding_ok (.F 32) .Exact = false ∧
      Operator.check_rounding
          (.binOp .Max (.F 32) (.F 32) .Nearest) =
        Except.error (TypeError.InvalidRounding .Nearest (.F 32)) ∧
      claim_rounding_ok (.F 32) .Nearest = true :=
  ⟨rfl, rfl, rfl, rfl⟩

/-- C5 (amended): the rounding checks of `Operator::check` accept an operator
exactly when: for the rounding-requiring operators (`Add`/`Sub`/`Div`/`And`/
`Or` binary operators, `Mul`, `Mad`) the rounding is `Exact` iff the first
operand type is not floating-point (integer and pointer types behave alike);
for the comparison and `Max` binary operators the rounding is `Exact`
whatever the operand type; the remaining operators carry no rounding mode and
always pass. A failing combination yields an `InvalidRounding` error. -/
theorem c5_amended (op : Operator) :
    (Operator.check_rounding op).isOk = amended_rounding_ok op := by
  cases op with
  | binOp o lhs rhs r =>
      cases o <;> cases r <;>
        simp [Operator.check_rounding, BinOp.requires_rounding,
          Rounding.check, amended_rounding_ok, Except.isOk, Except.toBool] <;>
        cases h : lhs.is_float <;> simp [h]
  | mul lhs rhs r res =>
      cases r <;>
        simp [Operator.check_rounding, Rounding.check,
          amended_rounding_ok, Except.isOk, Except.toBool] <;>
        cases h : lhs.is_float <;> simp [h]
  | mad a b c r =>
      cases r <;>
        simp [Operator.check_rounding, Rounding.check,
          amended_rounding_ok, Except.isOk, Except.toBool] <;>
        cases h : a.is_float <;> simp [h]
  | unaryOp t => rfl
  | ld t a => rfl
  | st a v s => rfl
  | tmpLd t m => rfl
  | tmpSt v m => rfl

/-- C7: for a global load iterating on two wrap-size thread dimensions where
one strides by the L1 cache line, the memory analysis reports
`l1_coalescing = 1` and `memory_transactions = wrap_size` when the strided
dimension is ordered `INNER` relative to the other, and
`l1_coalescing = 1/wrap_size` and `memory_transactions = 1` when it is
ordered `OUTER`. -/
theorem c7_global_coalescing :
    info_global [c7_strided_dim, c7_other_dim] c7_inner_num_inner gpu_dummy =
        some ⟨1, 1, (gpu_dummy.wrap_size : ℚ), true⟩ ∧
      info_global [c7_strided_dim, c7_other_dim] c7_outer_num_inner gpu_dummy =
        some ⟨1 / (gpu_dummy.wrap_size : ℚ), 1 / (gpu_dummy.wrap_size : ℚ),
          1, true⟩ := by
  refine ⟨by decide, by decide⟩

/-- C8: `wrap_access_offsets` on the two thread dimensions with partial sizes
in `[2..4]` and strides 0 and 1, base dimensions ordered before their partial
parts, returns exactly `[0,1,0,1,0,1,0,1,2,2,2,2,3,3,3,3]`. -/
theorem c8_offsets_with_partial_dims :
    wrap_access_offsets [c8_beg_1, c8_beg_0, c8_end_0, c8_end_1] false
      gpu_dummy =
      some [0, 1, 0, 1, 0, 1, 0, 1, 2, 2, 2, 2, 3, 3, 3, 3] := by
  decide

/-- C3 (code bug): with skipping enabled, a candidate whose first measured
timing is 2 ns, with performance-model bound 4 ns and current best 8 ns, is
abandoned after its first evaluation (the returned value is that first
timing; with skipping disabled the remaining evaluations run and average to
100 ns), even though its first timing does not exceed
`SKIP_THRESHOLD · current_best = 24 ns`: `eval_runtime` compares
`t0 * SKIP_THRESHOLD` against the model bound, not `t0` against
`SKIP_THRESHOLD` times the current best. -/
theorem c3_code_bug :
    eval_runtime 1 c3_thunk 4 8 true = Except.ok (.val 2) ∧
      eval_runtime 1 c3_thunk 4 8 false = Except.ok (.val 100) ∧
      ¬ ((2 : ℚ) > SKIP_THRESHOLD * 8) := by
  refine ⟨by decide, by decide, by decide⟩

/-- C4 counterexample: a candidate that is not abandoned early (skipping is
disabled) but whose first execution takes 2 s: the evaluator performs a
single further measurement (`max(1, min(NUM_EVALS, ⌊10⁹/t0⌋)) = 1`) and
returns it (4·10⁹ ns), while the procedure described by the claim —
`NUM_EVALS = 20` measurements (ticks 4·10⁹ then 19 × 8·10⁹, executions 1
to 20 of `c4_thunk`), `NUM_OUTLIERS = 4` discarded, remainder averaged —
yields 8·10⁹ ns. -/
theorem c4_counterexample :
    eval_runtime 1 c4_thunk 42 0 false = Except.ok (.val 4000000000) ∧
      claim_eval_average 1 (4000000000 :: List.replicate 19 8000000000) =
        8000000000 ∧
      (4000000000 : ℚ) ≠ 8000000000 := by
  refine ⟨by decide, by decide, by decide⟩

/-- C4 (amended): for every candidate that is not abandoned early, the
evaluator measures the runtime `max(1, min(NUM_EVALS, ⌊10⁹/t0⌋))` times
(where `t0` is the first measured timing; this is `NUM_EVALS = 20` whenever
`t0 ≤ 5·10⁷ ns`), discards the samples furthest from the median so as to
keep `max(1, count − NUM_OUTLIERS)` samples, and returns the average of the
kept samples. -/
theorem c4_amended (smx_clock : ℚ) (m : Nat → Nat) (bound current_best : ℚ)
    (skip : Bool)
    (h1 : ¬ (bound ≥ current_best ∧ skip = true))
    (h2 : ¬ (skip = true ∧ ticks_to_ns smx_clock (m 0) * SKIP_THRESHOLD ≥ bound)) :
    eval_runtime smx_clock (fun i => Except.ok (m i)) bound current_best skip =
      Except.ok (EvalOutcome.val (claim_eval_average smx_clock
        ((List.range (adjusted_num_evals (ticks_to_ns smx_clock (m 0)))).map
          (fun i => m (1 + i))))) := by
  have hn : 1 ≤ adjusted_num_evals (ticks_to_ns smx_clock (m 0)) :=
    Nat.le_max_left _ _
  unfold eval_runtime claim_eval_average
  rw [if_neg h1]
  simp only [Except.bind]
  rw [if_neg h2, mapM_except_ok]
  simp only [Except.bind]
  simp only [List.length_map, List.length_range]
  have hlen : ∀ (l : List ℚ) (k : Nat), k ≤ l.length → (l.take k).length = k := by
    intro l k hk
    simp [List.length_take, Nat.min_eq_left hk]
  rw [hlen]
  rw [sortStable_length, List.length_map, sortStable_length, List.length_map,
    List.length_range]
  exact Nat.max_le.mpr ⟨hn, Nat.sub_le _ _⟩

/-- C4 witness: the amended statement instantiated on a fast candidate (first
timing 100 ns, skipping disabled): 20 measurements of 100 ticks each, 4
discarded, average 100 ns. -/
theorem c4_amended_witness :
    eval_runtime 1 (fun i => Except.ok ((fun _ => 100) i)) 4 8 false =
      Except.ok (EvalOutcome.val (claim_eval_average 1
        ((List.range (adjusted_num_evals (ticks_to_ns 1 ((fun _ => 100) 0)))).map
          (fun i => (fun _ => 100) (1 + i))))) :=
  c4_amended 1 (fun _ => 100) 4 8 false (by decide) (by decide)

end

end Telamon
